import Mathlib

/-!
Verification of `rust_src/src/keyboard.rs` (remacs keyboard glue).

The file under verification is interop glue between Rust-level editor
functions and the native editor runtime.  We shallowly embed the Lisp
objects the glue manipulates, embed each Rust function as a Lean
function, and treat the native runtime (window geometry, glyph layout,
throw/unwind machinery, the recursive command loop) as an opaque
collaborator: a record of host functions, or an explicit event trace.
-/

namespace Remacs

/-- Lisp objects as far as the keyboard glue can observe them: symbols
(identified by name, as `EQ` on interned symbols is name equality),
fixnums, cons cells, and all other object kinds collapsed to an opaque
tag (`other`), since the glue only ever tests nil-ness, fixnum-ness and
symbol-ness on them. -/
inductive LispObject where
  | symbol (name : String)
  | fixnum (n : Int)
  | cons (car cdr : LispObject)
  | other (tag : Nat)
deriving DecidableEq, Repr

def Qnil : LispObject := .symbol "nil"
def Qt : LispObject := .symbol "t"
def Qexit : LispObject := .symbol "exit"
def Qhelp_echo : LispObject := .symbol "help-echo"
def Qvertical_line : LispObject := .symbol "vertical-line"
def Qmode_line : LispObject := .symbol "mode-line"
def Qheader_line : LispObject := .symbol "header-line"

def LispObject.is_nil (o : LispObject) : Bool := o == Qnil

def LispObject.is_not_nil (o : LispObject) : Bool := !o.is_nil

def LispObject.is_fixnum : LispObject → Bool
  | .fixnum _ => true
  | _ => false

def LispObject.is_symbol : LispObject → Bool
  | .symbol _ => true
  | _ => false

/-- A cons cell, as `LispCons` in the Rust sources: a car and a cdr. -/
structure LispCons where
  car : LispObject
  cdr : LispObject
deriving DecidableEq, Repr

def LispCons.toObject (c : LispCons) : LispObject := .cons c.car c.cdr

/-- The cars produced by `iter_cars` with end and circular checks off:
it yields the car of each cons cell while the running tail is a cons. -/
def carList : LispObject → List LispObject
  | .cons a d => a :: carList d
  | _ => []

/-- The tail at which `iter_cars` stops: the first non-cons object
reached by following cdrs.  `it.rest()` after exhausting the iterator. -/
def consTail : LispObject → LispObject
  | .cons _ d => consTail d
  | o => o

/-- `lucid_event_type_list_p` from `keyboard.rs`: on `None` (the input
was not a cons) it returns `false`; on `Some event` it rejects an event
whose car is one of four special symbols, then requires every element of
the list to be a fixnum or a symbol and the terminating tail to be nil. -/
def lucid_event_type_list_p : Option LispCons → Bool
  | none => false
  | some event =>
    let first := event.car
    if first == Qhelp_echo || first == Qvertical_line ||
        first == Qmode_line || first == Qheader_line then
      false
    else
      let l := event.toObject
      if (carList l).all (fun elt => elt.is_fixnum || elt.is_symbol) then
        (consTail l).is_nil
      else
        false

/-- An error signalled while marshalling arguments, as raised by
`as_fixnum_or_error`, `check_natnum` and `as_natnum_or_error`:
a wrong-type-argument against a predicate name. -/
inductive EmacsError where
  | wrongType (pred : String) (arg : LispObject)
deriving DecidableEq, Repr

instance {ε α : Type} [DecidableEq ε] [DecidableEq α] :
    DecidableEq (Except ε α) := fun a b =>
  match a, b with
  | .ok x, .ok y =>
    if h : x = y then isTrue (by rw [h]) else isFalse (by simp [h])
  | .error x, .error y =>
    if h : x = y then isTrue (by rw [h]) else isFalse (by simp [h])
  | .ok _, .error _ => isFalse (by simp)
  | .error _, .ok _ => isFalse (by simp)

/-- `LispObject::as_fixnum_or_error`: the fixnum payload, or a
wrong-type-argument error. -/
def as_fixnum_or_error : LispObject → Except EmacsError Int
  | .fixnum n => .ok n
  | o => .error (.wrongType "fixnump" o)

/-- `LispObject::as_natnum_or_error`: the payload of a non-negative
fixnum, or a wrong-type-argument error. -/
def as_natnum_or_error : LispObject → Except EmacsError Int
  | .fixnum n => if n < 0 then .error (.wrongType "natnump" (.fixnum n)) else .ok n
  | o => .error (.wrongType "natnump" o)

/-- One step of `iter_cars` followed by `map_or(0, as_fixnum_or_error)`:
on a cons, the car parsed as a fixnum together with the cdr; on a
non-cons, the default `0` with the object left in place as the rest. -/
def nextFixnumOr0 (o : LispObject) : Except EmacsError (Int × LispObject) :=
  match o with
  | .cons a d =>
    match as_fixnum_or_error a with
    | .error e => .error e
    | .ok n => .ok (n, d)
  | _ => .ok (0, o)

/-- The `x as i32` truncating cast of Rust. -/
def toI32 (n : Int) : Int := (n + 2147483648) % 4294967296 - 2147483648

/-- A live frame, opaque to the glue: only its identity matters. -/
abbrev Frame := Nat

/-- A window as the glue observes it: its left edge coordinate, its
window-to-frame y conversion, and its frame.  All three are provided by
the host window system. -/
structure Window where
  left_edge_x : Int
  frame_pixel_y : Int → Int
  frame : Frame

/-- What `FRAME-OR-WINDOW` resolves to. -/
inductive FrameOrWindow where
  | window (w : Window)
  | frame (f : Frame)

/-- The native editor runtime the glue delegates to, kept fully
abstract.  `pos_visible_in_window_p`, `window_box_left_offset` and
`make_lispy_position` are the C functions of the same names.
`window_frame_live_or_selected` — Modelled from the spec: the
resolution step of `window_frame_live_or_selected_with_action`
(defined in `frames.rs`, which is outside the analyzed source) maps a
`FRAME-OR-WINDOW` designator to either a live window (whose frame is
returned after the glue's coordinate-translating action runs) or
directly to a live frame, signalling on an invalid designator. -/
structure Host where
  pos_visible_in_window_p : LispObject → LispObject → LispObject → LispObject
  window_frame_live_or_selected : LispObject → Except EmacsError FrameOrWindow
  window_box_left_offset : Window → Int
  make_lispy_position : Frame → LispObject → LispObject → Int → LispObject

/-- `posn_at_x_y` from `keyboard.rs`: parse X (a fixnum, checked to be
a natnum unless it is exactly -1) and Y (a natnum), cast both to `i32`,
resolve FRAME-OR-WINDOW; when it resolves to a window, add the window's
left edge x, add the text-area left box offset exactly when WHOLE is
nil, and convert Y to frame pixel coordinates; finally delegate to
`make_lispy_position` on the resolved frame. -/
def posn_at_x_y (h : Host) (objx objy frame_or_window whole : LispObject) :
    Except EmacsError LispObject :=
  match as_fixnum_or_error objx with
  | .error e => .error e
  | .ok x0 =>
    if x0 ≠ -1 ∧ x0 < 0 then .error (.wrongType "natnump" (.fixnum x0))
    else
      match as_natnum_or_error objy with
      | .error e => .error e
      | .ok y0 =>
        let x := toI32 x0
        let y := toI32 y0
        match h.window_frame_live_or_selected frame_or_window with
        | .error e => .error e
        | .ok (FrameOrWindow.window w) =>
          let x := x + w.left_edge_x
          let x := if whole.is_nil then x + h.window_box_left_offset w else x
          .ok (h.make_lispy_position w.frame (.fixnum x) (.fixnum (w.frame_pixel_y y)) 0)
        | .ok (FrameOrWindow.frame f) =>
          .ok (h.make_lispy_position f (.fixnum x) (.fixnum y) 0)

/-- `posn_at_point` from `keyboard.rs`: ask the host whether POS is
(at least partially) visible in WINDOW; on nil return nil; otherwise
read x and y from the host's answer (defaulting to 0), return nil when
`x < -1` (point invisible due to hscrolling), add the reported `rtop`
to a negative y when extra visibility info is present, and delegate to
`posn_at_x_y` with the same window and WHOLE = nil. -/
def posn_at_point (h : Host) (pos window : LispObject) :
    Except EmacsError LispObject :=
  let tem := h.pos_visible_in_window_p pos window Qt
  if tem.is_nil then .ok Qnil
  else
    match nextFixnumOr0 tem with
    | .error e => .error e
    | .ok (x, t1) =>
      match nextFixnumOr0 t1 with
      | .error e => .error e
      | .ok (y, t2) =>
        if x < -1 then .ok Qnil
        else if t2.is_not_nil && decide (y < 0) then
          match nextFixnumOr0 t2 with
          | .error e => .error e
          | .ok (rtop, _) =>
            posn_at_x_y h (.fixnum x) (.fixnum (y + rtop)) window Qnil
        else
          posn_at_x_y h (.fixnum x) (.fixnum y) window Qnil

/-- The position descriptor `posn_at_x_y` hands back from the host, as
a function of the resolved FRAME-OR-WINDOW, WHOLE, and the already-cast
coordinates: for a window, `make_lispy_position` on the window's frame
with X shifted by the window's left edge plus (exactly when WHOLE is
nil) the text-area left box offset, and Y converted to frame pixels;
for a frame, `make_lispy_position` with X and Y untranslated. -/
def lispyPosition (h : Host) (r : FrameOrWindow) (whole : LispObject)
    (x y : Int) : LispObject :=
  match r with
  | .window w =>
    h.make_lispy_position w.frame
      (.fixnum (if whole.is_nil then x + w.left_edge_x + h.window_box_left_offset w
                else x + w.left_edge_x))
      (.fixnum (w.frame_pixel_y y)) 0
  | .frame f => h.make_lispy_position f (.fixnum x) (.fixnum y) 0

/-- X arguments `posn_at_x_y` accepts: a fixnum that is -1 or
non-negative. -/
def validPosnX : LispObject → Bool
  | .fixnum x => x == -1 || decide (0 ≤ x)
  | _ => false

/-- Y arguments `posn_at_x_y` accepts: a non-negative fixnum. -/
def validPosnY : LispObject → Bool
  | .fixnum y => decide (0 ≤ y)
  | _ => false

/-- How a function of type `-> !` leaves its caller: a `Fthrow` to a
catch tag with a value, or a signalled user error.  `normalReturn`
exists only so that "never returns normally" is expressible; no
embedded function produces it. -/
inductive ControlOutcome where
  | thrown (tag val : LispObject)
  | userError (msg : String)
  | normalReturn (val : LispObject)
deriving DecidableEq, Repr

/-- `quit_recursive_edit` from `keyboard.rs`, as a function of the
globals it reads: when a recursive edit or minibuffer is active it
throws VAL (as a Lisp boolean) to the tag `exit` via `Fthrow`;
otherwise it signals "No recursive edit is in progress".  `Fthrow`
never returns, so the signalling branch is the complement. -/
def quit_recursive_edit (command_loop_level minibuf_level : Int)
    (val : Bool) : ControlOutcome :=
  if 0 < command_loop_level ∨ 0 < minibuf_level then
    .thrown Qexit (if val then Qt else Qnil)
  else
    .userError "No recursive edit is in progress"

/-- `exit_recursive_edit`: `quit_recursive_edit(false)`. -/
def exit_recursive_edit (command_loop_level minibuf_level : Int) :
    ControlOutcome :=
  quit_recursive_edit command_loop_level minibuf_level false

/-- `abort_recursive_edit`: `quit_recursive_edit(true)`. -/
def abort_recursive_edit (command_loop_level minibuf_level : Int) :
    ControlOutcome :=
  quit_recursive_edit command_loop_level minibuf_level true

/-- An entry on the specpdl: an unwind handler with its argument.
`recursiveEditUnwind` is the native `recursive_edit_unwind`; all other
handlers are opaque. -/
inductive UnwindHandler where
  | recursiveEditUnwind
  | otherUnwind (id : Nat)
deriving DecidableEq, Repr

/-- A call out of `recursive_edit` into the native runtime, in program
order. -/
inductive HostCall where
  | record_unwind_protect (handler : UnwindHandler) (arg : LispObject)
  | temporarily_switch_to_single_kboard
  | recursive_edit_1
  | unbind_to (depth : Nat)
deriving DecidableEq, Repr

/-- The editor globals `recursive_edit` reads and writes.  The specpdl
is a stack, most recent binding first; its length is
`c_specpdl_index`.  The selected window's buffer is `none` when the
selected window object is not a live window. -/
structure KbState where
  command_loop_level : Int
  interrupt_input_blocked : Int
  update_mode_lines : Int
  specpdl : List (UnwindHandler × LispObject)
  selected_window_contents : Option LispObject
  current_buffer : LispObject
deriving DecidableEq, Repr

/-- The `buf` argument `recursive_edit` hands to the unwind handler:
the current buffer when `command_loop_level >= 0` and the selected
window does not already show it (or is not a live window), else nil. -/
def recursive_edit_buf (s : KbState) : LispObject :=
  if decide (0 ≤ s.command_loop_level) &&
      ((s.selected_window_contents.map
        (fun contents => !(contents == s.current_buffer))).getD true) then
    s.current_buffer
  else Qnil

/-- The state in which `recursive_edit` enters the host command loop
`recursive_edit_1`: `command_loop_level` incremented,
`update_mode_lines` set to 17, and `recursive_edit_unwind` pushed on
the specpdl via `record_unwind_protect`. -/
def recursive_edit_entry_state (s : KbState) : KbState :=
  { s with
    command_loop_level := s.command_loop_level + 1
    update_mode_lines := 17
    specpdl := (UnwindHandler.recursiveEditUnwind, recursive_edit_buf s) :: s.specpdl }

/-- `unbind_to(count, Qnil)` as it acts on the specpdl: pop entries
until the depth recorded at entry is restored.  The handlers run
during popping are native code and their effects stay opaque. -/
def unbind_to (count : Nat) (s : KbState) : KbState :=
  { s with specpdl := s.specpdl.drop (s.specpdl.length - count) }

/-- `recursive_edit` from `keyboard.rs`, parametrized by the host
command loop `rec1` (the native `recursive_edit_1`, an arbitrary state
transformer, assumed to return normally): record the specpdl depth; if
input is blocked, return at once; otherwise compute `buf`, increment
`command_loop_level`, set `update_mode_lines`, register the unwind
handler, switch to a single kboard when the new level is positive, run
the host loop, and unbind back to the recorded depth.  The second
component lists the calls made into the native runtime, in order. -/
def recursive_edit (rec1 : KbState → KbState) (s : KbState) :
    KbState × List HostCall :=
  let count := s.specpdl.length
  if 0 < s.interrupt_input_blocked then (s, [])
  else
    let s1 := recursive_edit_entry_state s
    let s2 := rec1 s1
    (unbind_to count s2,
      HostCall.record_unwind_protect UnwindHandler.recursiveEditUnwind
          (recursive_edit_buf s) ::
        (if 0 < s1.command_loop_level then
          [HostCall.temporarily_switch_to_single_kboard]
        else []) ++
        [HostCall.recursive_edit_1, HostCall.unbind_to count])

/-- Spec-side notion: a proper, nil-terminated list. -/
inductive IsProperList : LispObject → Prop
  | nil : IsProperList Qnil
  | cons (a : LispObject) {d : LispObject} : IsProperList d → IsProperList (.cons a d)

theorem isProperList_iff_consTail (o : LispObject) :
    IsProperList o ↔ consTail o = Qnil := by
  induction o with
  | symbol n =>
    constructor
    · rintro ⟨⟩; rfl
    · intro h
      simp only [consTail] at h
      rw [h]; exact IsProperList.nil
  | fixnum n =>
    constructor
    · rintro ⟨⟩
    · intro h; simp [consTail, Qnil] at h
  | cons a d iha ihd =>
    constructor
    · rintro ⟨⟩; next h =>
        exact (consTail.eq_def _ ▸ (ihd.mp h) : consTail (LispObject.cons a d) = Qnil)
    · intro h
      exact IsProperList.cons a (ihd.mpr (by simpa [consTail] using h))
  | other t =>
    constructor
    · rintro ⟨⟩
    · intro h; simp [consTail, Qnil] at h

/-- C1: `lucid_event_type_list_p` recognizes the legacy Lucid event-list
encoding: it returns `true` iff the input is a cons whose car is none of
`help-echo`, `vertical-line`, `mode-line`, `header-line`, every element
of the list is a fixnum or a symbol, and the list is proper
(nil-terminated); in particular it returns `false` on `none` (non-cons
input) and on any dotted list. -/
theorem lucid_event_type_list_p_spec (ev : Option LispCons) :
    lucid_event_type_list_p ev = true ↔
      ∃ c : LispCons, ev = some c ∧
        c.car ≠ Qhelp_echo ∧ c.car ≠ Qvertical_line ∧
        c.car ≠ Qmode_line ∧ c.car ≠ Qheader_line ∧
        (∀ elt ∈ carList c.toObject, elt.is_fixnum = true ∨ elt.is_symbol = true) ∧
        IsProperList c.toObject := by
  cases ev with
  | none => simp [lucid_event_type_list_p]
  | some c =>
    constructor
    · intro h
      simp only [lucid_event_type_list_p] at h
      split at h
      · exact absurd h (by decide)
      next hb =>
        split at h
        next hall =>
          simp only [Bool.or_eq_true, beq_iff_eq, not_or] at hb
          refine ⟨c, rfl, hb.1.1.1, hb.1.1.2, hb.1.2, hb.2, ?_, ?_⟩
          · intro elt helt
            simpa using List.all_eq_true.mp hall elt helt
          · exact (isProperList_iff_consTail _).mpr
              (by simpa [LispObject.is_nil] using h)
        next hall => exact absurd h (by decide)
    · rintro ⟨c', hc', h1, h2, h3, h4, helts, hprop⟩
      injection hc' with hcc
      subst hcc
      have hcond : (c.car == Qhelp_echo || c.car == Qvertical_line ||
          c.car == Qmode_line || c.car == Qheader_line) = false := by
        simp [h1, h2, h3, h4]
      have hall : (carList c.toObject).all
          (fun elt => elt.is_fixnum || elt.is_symbol) = true := by
        rw [List.all_eq_true]
        intro elt helt
        simpa using helts elt helt
      simp [lucid_event_type_list_p, hcond, hall, LispObject.is_nil,
        (isProperList_iff_consTail _).mp hprop]

theorem as_fixnum_or_error_ok {o : LispObject} {n : Int}
    (h : as_fixnum_or_error o = .ok n) : o = .fixnum n := by
  cases o <;> simp_all [as_fixnum_or_error]

/-- Shared helper: on valid coordinates and a successful resolution,
`posn_at_x_y` returns the host position descriptor with the translated
coordinates. -/
theorem posn_at_x_y_ok (h : Host) (fw whole : LispObject) (x y : Int)
    (r : FrameOrWindow)
    (hx : x = -1 ∨ 0 ≤ x) (hy : 0 ≤ y)
    (hr : h.window_frame_live_or_selected fw = .ok r) :
    posn_at_x_y h (.fixnum x) (.fixnum y) fw whole =
      .ok (lispyPosition h r whole (toI32 x) (toI32 y)) := by
  have hxc : ¬(x ≠ -1 ∧ x < 0) := by
    rcases hx with h1 | h1
    · exact fun hc => hc.1 h1
    · exact fun hc => absurd h1 (not_le.mpr hc.2)
  simp only [posn_at_x_y, as_fixnum_or_error, as_natnum_or_error, if_neg hxc,
    if_neg (not_lt.mpr hy), hr]
  cases r with
  | window w =>
    by_cases hw : whole.is_nil = true
    · simp [lispyPosition, hw]
    · simp only [Bool.not_eq_true] at hw
      simp [lispyPosition, hw]
  | frame f => simp [lispyPosition]

/-- Shared helper: when the host reports POS visible, `posn_at_point`
returns nil. -/
theorem posn_at_point_visible_nil (h : Host) (pos window : LispObject)
    (hvis : (h.pos_visible_in_window_p pos window Qt).is_nil = true) :
    posn_at_point h pos window = .ok Qnil := by
  simp [posn_at_point, hvis]

/-- Shared helper: when the host reports POS visible and its answer
parses, `posn_at_point` is the `x < -1` guard followed by delegation to
`posn_at_x_y` at the extracted (and rtop-adjusted) coordinates. -/
theorem posn_at_point_eq (h : Host) (pos window : LispObject)
    (x y0 rtop : Int) (t1 t2 t3 : LispObject)
    (hvis : (h.pos_visible_in_window_p pos window Qt).is_nil = false)
    (h1 : nextFixnumOr0 (h.pos_visible_in_window_p pos window Qt) = .ok (x, t1))
    (h2 : nextFixnumOr0 t1 = .ok (y0, t2))
    (h3 : t2.is_not_nil = true → y0 < 0 → nextFixnumOr0 t2 = .ok (rtop, t3)) :
    posn_at_point h pos window =
      if x < -1 then .ok Qnil
      else
        posn_at_x_y h (.fixnum x)
          (.fixnum (if t2.is_not_nil && decide (y0 < 0) then y0 + rtop else y0))
          window Qnil := by
  simp only [posn_at_point, hvis, Bool.false_eq_true, if_false, h1, h2]
  by_cases hx : x < -1
  · rw [if_pos hx, if_pos hx]
  · rw [if_neg hx, if_neg hx]
    by_cases hc : (t2.is_not_nil && decide (y0 < 0)) = true
    · have hparts := Bool.and_eq_true_iff.mp hc
      rw [h3 hparts.1 (of_decide_eq_true hparts.2), if_pos hc, if_pos hc]
    · rw [if_neg hc, if_neg hc]

/-- A concrete window used to instantiate theorems on concrete hosts. -/
def testWindow : Window :=
  { left_edge_x := 3
    frame_pixel_y := fun y => y + 10
    frame := 1 }

/-- A concrete host whose visibility check reports POS visible at
`(5 7)`. -/
def hostVis : Host :=
  { pos_visible_in_window_p := fun _ _ _ =>
      .cons (.fixnum 5) (.cons (.fixnum 7) Qnil)
    window_frame_live_or_selected := fun _ => .ok (.window testWindow)
    window_box_left_offset := fun _ => 2
    make_lispy_position := fun f x y _ =>
      .cons (.fixnum (Int.ofNat f)) (.cons x (.cons y Qnil)) }

/-- A concrete host whose visibility check reports POS visible at
`(-2 0)`: visible, but hscrolled out of view. -/
def hostNeg2 : Host :=
  { pos_visible_in_window_p := fun _ _ _ =>
      .cons (.fixnum (-2)) (.cons (.fixnum 0) Qnil)
    window_frame_live_or_selected := fun _ => .ok (.window testWindow)
    window_box_left_offset := fun _ => 2
    make_lispy_position := fun f x y _ =>
      .cons (.fixnum (Int.ofNat f)) (.cons x (.cons y Qnil)) }

/-- A concrete host whose visibility check reports POS visible at
`(-1 7)`: the R2L-overflow edge case. -/
def hostM1 : Host :=
  { pos_visible_in_window_p := fun _ _ _ =>
      .cons (.fixnum (-1)) (.cons (.fixnum 7) Qnil)
    window_frame_live_or_selected := fun _ => .ok (.window testWindow)
    window_box_left_offset := fun _ => 2
    make_lispy_position := fun f x y _ =>
      .cons (.fixnum (Int.ofNat f)) (.cons x (.cons y Qnil)) }

/-- C2 counterexample: a host whose visibility check returns the
non-nil answer `(-2 0)`.  `posn_at_point` returns nil, yet
`posn_at_x_y` at the x and y taken from that answer (with the same
window and WHOLE nil) does not return nil — it signals a
wrong-type-argument — so `posn_at_point` does not return the value of
`posn_at_x_y` whenever the visibility check is non-nil. -/
theorem posn_at_point_not_pure_delegation :
    (hostNeg2.pos_visible_in_window_p Qnil Qnil Qt).is_nil = false ∧
      posn_at_point hostNeg2 Qnil Qnil = .ok Qnil ∧
      posn_at_point hostNeg2 Qnil Qnil ≠
        posn_at_x_y hostNeg2 (.fixnum (-2)) (.fixnum 0) Qnil Qnil := by
  refine ⟨by decide, by decide, by decide⟩

/-- C2 (amended): `posn_at_point` delegates geometry to the host: when
the host visibility check returns nil it returns nil; otherwise, when
the x reported by the host is less than -1 it also returns nil; and in
all remaining cases it returns exactly `posn_at_x_y` applied to the x
and y taken from the host's answer (y increased by the reported rtop
when extra visibility info is present and y is negative), the same
window, and WHOLE = nil. -/
theorem posn_at_point_delegates (h : Host) (pos window : LispObject)
    (x y0 rtop : Int) (t1 t2 t3 : LispObject)
    (h1 : nextFixnumOr0 (h.pos_visible_in_window_p pos window Qt) = .ok (x, t1))
    (h2 : nextFixnumOr0 t1 = .ok (y0, t2))
    (h3 : t2.is_not_nil = true → y0 < 0 → nextFixnumOr0 t2 = .ok (rtop, t3)) :
    ((h.pos_visible_in_window_p pos window Qt).is_nil = true →
      posn_at_point h pos window = .ok Qnil) ∧
    ((h.pos_visible_in_window_p pos window Qt).is_nil = false → x < -1 →
      posn_at_point h pos window = .ok Qnil) ∧
    ((h.pos_visible_in_window_p pos window Qt).is_nil = false → -1 ≤ x →
      posn_at_point h pos window =
        posn_at_x_y h (.fixnum x)
          (.fixnum (if t2.is_not_nil && decide (y0 < 0) then y0 + rtop else y0))
          window Qnil) := by
  refine ⟨fun hvis => posn_at_point_visible_nil h pos window hvis, ?_, ?_⟩
  · intro hvis hx
    rw [posn_at_point_eq h pos window x y0 rtop t1 t2 t3 hvis h1 h2 h3,
      if_pos hx]
  · intro hvis hx
    rw [posn_at_point_eq h pos window x y0 rtop t1 t2 t3 hvis h1 h2 h3,
      if_neg (not_lt.mpr hx)]

theorem posn_at_point_delegates_witness :
    (nextFixnumOr0 (hostVis.pos_visible_in_window_p Qnil Qnil Qt) =
        .ok (5, .cons (.fixnum 7) Qnil) ∧
      nextFixnumOr0 (.cons (.fixnum 7) Qnil) = .ok (7, Qnil) ∧
      (Qnil.is_not_nil = true → (7 : Int) < 0 →
        nextFixnumOr0 Qnil = .ok (0, Qnil))) ∧
    (((hostVis.pos_visible_in_window_p Qnil Qnil Qt).is_nil = true →
        posn_at_point hostVis Qnil Qnil = .ok Qnil) ∧
      ((hostVis.pos_visible_in_window_p Qnil Qnil Qt).is_nil = false →
        (5 : Int) < -1 → posn_at_point hostVis Qnil Qnil = .ok Qnil) ∧
      ((hostVis.pos_visible_in_window_p Qnil Qnil Qt).is_nil = false →
        (-1 : Int) ≤ 5 →
        posn_at_point hostVis Qnil Qnil =
          posn_at_x_y hostVis (.fixnum 5)
            (.fixnum (if Qnil.is_not_nil && decide ((7 : Int) < 0) then 7 + 0 else 7))
            Qnil Qnil)) :=
  ⟨⟨by decide, by decide, by decide⟩,
    posn_at_point_delegates hostVis Qnil Qnil 5 7 0 (.cons (.fixnum 7) Qnil)
      Qnil Qnil (by decide) (by decide) (by decide)⟩

/-- C3: `posn_at_x_y` is parameter translation plus delegation: on
valid X and Y, when FRAME-OR-WINDOW resolves to a window, the result is
the host's `make_lispy_position` on that window's frame at X shifted by
the window's left edge x plus — exactly when WHOLE is nil — the
text-area left box offset, and at Y converted to frame pixel
coordinates; when it resolves directly to a frame, X and Y are passed
through untranslated (`lispyPosition` spells out both cases). -/
theorem posn_at_x_y_translates (h : Host) (fw whole : LispObject) (x y : Int)
    (r : FrameOrWindow)
    (hx : x = -1 ∨ 0 ≤ x) (hy : 0 ≤ y)
    (hr : h.window_frame_live_or_selected fw = .ok r) :
    posn_at_x_y h (.fixnum x) (.fixnum y) fw whole =
      .ok (lispyPosition h r whole (toI32 x) (toI32 y)) :=
  posn_at_x_y_ok h fw whole x y r hx hy hr

theorem posn_at_x_y_translates_witness :
    ((5 : Int) = -1 ∨ (0 : Int) ≤ 5) ∧ (0 : Int) ≤ 7 ∧
      hostVis.window_frame_live_or_selected Qnil =
        .ok (.window testWindow) ∧
      posn_at_x_y hostVis (.fixnum 5) (.fixnum 7) Qnil Qnil =
        .ok (lispyPosition hostVis (.window testWindow) Qnil (toI32 5) (toI32 7)) :=
  ⟨Or.inr (by decide), by decide, rfl,
    posn_at_x_y_translates hostVis Qnil Qnil 5 7 (.window testWindow)
      (Or.inr (by decide)) (by decide) rfl⟩

/-- C7: `posn_at_x_y` validates before delegating: whenever X is not a
fixnum equal to -1 or non-negative, or Y is not a non-negative fixnum,
it signals a wrong-type-argument error, and the very same error results
for every host — the error is raised before any geometry translation
or host call. -/
theorem posn_at_x_y_validates (objx objy fw whole : LispObject)
    (hbad : validPosnX objx = false ∨ validPosnY objy = false) :
    ∃ e : EmacsError, ∀ h : Host,
      posn_at_x_y h objx objy fw whole = .error e := by
  cases hfx : as_fixnum_or_error objx with
  | error e => exact ⟨e, fun h => by simp [posn_at_x_y, hfx]⟩
  | ok x =>
    have hobjx := as_fixnum_or_error_ok hfx
    by_cases hxbad : x ≠ -1 ∧ x < 0
    · exact ⟨.wrongType "natnump" (.fixnum x), fun h => by
        simp [posn_at_x_y, hfx, if_pos hxbad]⟩
    · have hXt : validPosnX objx = true := by
        subst hobjx
        simp only [validPosnX]
        rcases not_and_or.mp hxbad with h1 | h1
        · simp [not_not.mp h1]
        · simp [not_lt.mp h1]
      have hY : validPosnY objy = false := by
        rcases hbad with h1 | h1
        · rw [hXt] at h1; exact absurd h1 (by decide)
        · exact h1
      cases hny : as_natnum_or_error objy with
      | error e =>
        exact ⟨e, fun h => by simp [posn_at_x_y, hfx, if_neg hxbad, hny]⟩
      | ok y =>
        exfalso
        cases objy with
        | fixnum m =>
          simp only [as_natnum_or_error] at hny
          by_cases hm : m < 0
          · rw [if_pos hm] at hny
            exact Except.noConfusion hny
          · simp only [validPosnY, decide_eq_false_iff_not, not_le] at hY
            exact hm hY
        | symbol n => simp [as_natnum_or_error] at hny
        | cons a d => simp [as_natnum_or_error] at hny
        | other t => simp [as_natnum_or_error] at hny

theorem posn_at_x_y_validates_witness :
    (validPosnX Qnil = false ∨ validPosnY (.fixnum 0) = false) ∧
      ∃ e : EmacsError, ∀ h : Host,
        posn_at_x_y h Qnil (.fixnum 0) Qnil Qnil = .error e :=
  ⟨Or.inl (by decide),
    posn_at_x_y_validates Qnil (.fixnum 0) Qnil Qnil (Or.inl (by decide))⟩

/-- C9: beyond the failed visibility check, `posn_at_point` also
returns nil whenever the x reported by the host is less than -1
(position invisible due to horizontal scrolling), while an x of
exactly -1 is accepted: validation passes and the host's position
descriptor is returned. -/
theorem posn_at_point_hscroll (h : Host) (pos window : LispObject)
    (x y0 rtop : Int) (t1 t2 t3 : LispObject) (r : FrameOrWindow)
    (hvis : (h.pos_visible_in_window_p pos window Qt).is_nil = false)
    (h1 : nextFixnumOr0 (h.pos_visible_in_window_p pos window Qt) = .ok (x, t1))
    (h2 : nextFixnumOr0 t1 = .ok (y0, t2))
    (h3 : t2.is_not_nil = true → y0 < 0 → nextFixnumOr0 t2 = .ok (rtop, t3)) :
    (x < -1 → posn_at_point h pos window = .ok Qnil) ∧
    (x = -1 →
      0 ≤ (if t2.is_not_nil && decide (y0 < 0) then y0 + rtop else y0) →
      h.window_frame_live_or_selected window = .ok r →
      posn_at_point h pos window =
        .ok (lispyPosition h r Qnil (toI32 (-1))
          (toI32 (if t2.is_not_nil && decide (y0 < 0) then y0 + rtop else y0)))) := by
  constructor
  · intro hx
    rw [posn_at_point_eq h pos window x y0 rtop t1 t2 t3 hvis h1 h2 h3,
      if_pos hx]
  · intro hx hy hr
    subst hx
    rw [posn_at_point_eq h pos window (-1) y0 rtop t1 t2 t3 hvis h1 h2 h3,
      if_neg (by norm_num),
      posn_at_x_y_ok h window Qnil (-1) _ r (Or.inl rfl) hy hr]

theorem posn_at_point_hscroll_witness :
    ((hostM1.pos_visible_in_window_p Qnil Qnil Qt).is_nil = false ∧
      nextFixnumOr0 (hostM1.pos_visible_in_window_p Qnil Qnil Qt) =
        .ok (-1, .cons (.fixnum 7) Qnil) ∧
      nextFixnumOr0 (.cons (.fixnum 7) Qnil) = .ok (7, Qnil) ∧
      (Qnil.is_not_nil = true → (7 : Int) < 0 →
        nextFixnumOr0 Qnil = .ok (0, Qnil)) ∧
      hostM1.window_frame_live_or_selected Qnil = .ok (.window testWindow)) ∧
    (((-1 : Int) < -1 → posn_at_point hostM1 Qnil Qnil = .ok Qnil) ∧
      ((-1 : Int) = -1 →
        (0 : Int) ≤ (if Qnil.is_not_nil && decide ((7 : Int) < 0) then (7 : Int) + 0 else 7) →
        hostM1.window_frame_live_or_selected Qnil = .ok (.window testWindow) →
        posn_at_point hostM1 Qnil Qnil =
          .ok (lispyPosition hostM1 (.window testWindow) Qnil (toI32 (-1))
            (toI32 (if Qnil.is_not_nil && decide ((7 : Int) < 0) then (7 : Int) + 0 else 7))))) :=
  ⟨⟨by decide, by decide, by decide, by decide, rfl⟩,
    posn_at_point_hscroll hostM1 Qnil Qnil (-1) 7 0 (.cons (.fixnum 7) Qnil)
      Qnil Qnil (.window testWindow) (by decide) (by decide) (by decide) (by decide)⟩

/-- A concrete editor state with input unblocked. -/
def kbS0 : KbState :=
  { command_loop_level := 0
    interrupt_input_blocked := 0
    update_mode_lines := 0
    specpdl := [(UnwindHandler.otherUnwind 9, Qnil)]
    selected_window_contents := some (.other 5)
    current_buffer := .other 6 }

/-- A concrete editor state with input blocked. -/
def kbS1 : KbState :=
  { command_loop_level := 0
    interrupt_input_blocked := 1
    update_mode_lines := 0
    specpdl := []
    selected_window_contents := some (.other 5)
    current_buffer := .other 6 }

/-- C4: whenever a recursive edit or minibuffer is active,
`exit_recursive_edit` throws nil and `abort_recursive_edit` throws t,
both to the tag `exit`, and neither function ever returns normally to
its caller. -/
theorem exit_abort_throw_to_exit (command_loop_level minibuf_level : Int)
    (h : 0 < command_loop_level ∨ 0 < minibuf_level) :
    exit_recursive_edit command_loop_level minibuf_level =
        ControlOutcome.thrown Qexit Qnil ∧
      abort_recursive_edit command_loop_level minibuf_level =
        ControlOutcome.thrown Qexit Qt ∧
      (∀ (lvl mb : Int) (v : LispObject),
        exit_recursive_edit lvl mb ≠ ControlOutcome.normalReturn v ∧
        abort_recursive_edit lvl mb ≠ ControlOutcome.normalReturn v) := by
  refine ⟨?_, ?_, ?_⟩
  · simp [exit_recursive_edit, quit_recursive_edit, if_pos h]
  · simp [abort_recursive_edit, quit_recursive_edit, if_pos h]
  · intro lvl mb v
    constructor <;>
      · simp only [exit_recursive_edit, abort_recursive_edit,
          quit_recursive_edit]
        split <;> simp

theorem exit_abort_throw_to_exit_witness :
    ((0 : Int) < 1 ∨ (0 : Int) < 0) ∧
      (exit_recursive_edit 1 0 = ControlOutcome.thrown Qexit Qnil ∧
        abort_recursive_edit 1 0 = ControlOutcome.thrown Qexit Qt ∧
        (∀ (lvl mb : Int) (v : LispObject),
          exit_recursive_edit lvl mb ≠ ControlOutcome.normalReturn v ∧
          abort_recursive_edit lvl mb ≠ ControlOutcome.normalReturn v)) :=
  ⟨Or.inl (by decide), exit_abort_throw_to_exit 1 0 (Or.inl (by decide))⟩

/-- C5: when no recursive edit or minibuffer is active, both
`exit_recursive_edit` and `abort_recursive_edit` signal the user error
"No recursive edit is in progress" and do not throw to the tag
`exit` (or any tag). -/
theorem exit_abort_no_recursive_edit (command_loop_level minibuf_level : Int)
    (h1 : command_loop_level ≤ 0) (h2 : minibuf_level ≤ 0) :
    exit_recursive_edit command_loop_level minibuf_level =
        ControlOutcome.userError "No recursive edit is in progress" ∧
      abort_recursive_edit command_loop_level minibuf_level =
        ControlOutcome.userError "No recursive edit is in progress" ∧
      (∀ tag v : LispObject,
        exit_recursive_edit command_loop_level minibuf_level ≠
            ControlOutcome.thrown tag v ∧
        abort_recursive_edit command_loop_level minibuf_level ≠
            ControlOutcome.thrown tag v) := by
  have hc : ¬(0 < command_loop_level ∨ 0 < minibuf_level) := by
    rw [not_or]
    exact ⟨not_lt.mpr h1, not_lt.mpr h2⟩
  refine ⟨?_, ?_, ?_⟩
  · simp [exit_recursive_edit, quit_recursive_edit, if_neg hc]
  · simp [abort_recursive_edit, quit_recursive_edit, if_neg hc]
  · intro tag v
    constructor <;>
      simp [exit_recursive_edit, abort_recursive_edit,
        quit_recursive_edit, if_neg hc]

theorem exit_abort_no_recursive_edit_witness :
    (0 : Int) ≤ 0 ∧ (0 : Int) ≤ 0 ∧
      (exit_recursive_edit 0 0 =
          ControlOutcome.userError "No recursive edit is in progress" ∧
        abort_recursive_edit 0 0 =
          ControlOutcome.userError "No recursive edit is in progress" ∧
        (∀ tag v : LispObject,
          exit_recursive_edit 0 0 ≠ ControlOutcome.thrown tag v ∧
          abort_recursive_edit 0 0 ≠ ControlOutcome.thrown tag v)) :=
  ⟨by decide, by decide,
    exit_abort_no_recursive_edit 0 0 (by decide) (by decide)⟩

/-- C6: past the blocked-input check, `recursive_edit` increments
`command_loop_level` by exactly one and registers
`recursive_edit_unwind` before any later host call — in particular
before the host loop `recursive_edit_1` runs, which it does exactly in
the entry state — and after the loop returns normally it unbinds back
to the specpdl depth recorded at entry. -/
theorem recursive_edit_loop_discipline (rec1 : KbState → KbState) (s : KbState)
    (hblock : s.interrupt_input_blocked ≤ 0) :
    (recursive_edit_entry_state s).command_loop_level =
        s.command_loop_level + 1 ∧
      (recursive_edit_entry_state s).specpdl =
        (UnwindHandler.recursiveEditUnwind, recursive_edit_buf s) :: s.specpdl ∧
      recursive_edit rec1 s =
        (unbind_to s.specpdl.length (rec1 (recursive_edit_entry_state s)),
          HostCall.record_unwind_protect UnwindHandler.recursiveEditUnwind
              (recursive_edit_buf s) ::
            (if 0 < (recursive_edit_entry_state s).command_loop_level then
              [HostCall.temporarily_switch_to_single_kboard]
            else []) ++
            [HostCall.recursive_edit_1, HostCall.unbind_to s.specpdl.length]) ∧
      (s.specpdl.length ≤ (rec1 (recursive_edit_entry_state s)).specpdl.length →
        (recursive_edit rec1 s).1.specpdl.length = s.specpdl.length) := by
  have hc : ¬ 0 < s.interrupt_input_blocked := not_lt.mpr hblock
  refine ⟨rfl, rfl, ?_, ?_⟩
  · simp [recursive_edit, hc]
  · intro hlen
    simp [recursive_edit, hc, unbind_to, List.length_drop]
    omega

theorem recursive_edit_loop_discipline_witness :
    kbS0.interrupt_input_blocked ≤ 0 ∧
      ((recursive_edit_entry_state kbS0).command_loop_level =
          kbS0.command_loop_level + 1 ∧
        (recursive_edit_entry_state kbS0).specpdl =
          (UnwindHandler.recursiveEditUnwind, recursive_edit_buf kbS0) ::
            kbS0.specpdl ∧
        recursive_edit id kbS0 =
          (unbind_to kbS0.specpdl.length (id (recursive_edit_entry_state kbS0)),
            HostCall.record_unwind_protect UnwindHandler.recursiveEditUnwind
                (recursive_edit_buf kbS0) ::
              (if 0 < (recursive_edit_entry_state kbS0).command_loop_level then
                [HostCall.temporarily_switch_to_single_kboard]
              else []) ++
              [HostCall.recursive_edit_1,
                HostCall.unbind_to kbS0.specpdl.length]) ∧
        (kbS0.specpdl.length ≤
            (id (recursive_edit_entry_state kbS0)).specpdl.length →
          (recursive_edit id kbS0).1.specpdl.length = kbS0.specpdl.length)) :=
  ⟨by decide, recursive_edit_loop_discipline id kbS0 (by decide)⟩

/-- C8: with input blocked, `recursive_edit` returns immediately: the
editor state is unchanged (no counter increment, no mode-line flag, no
unwind handler) and no call into the native runtime is made. -/
theorem recursive_edit_blocked_input_noop (rec1 : KbState → KbState)
    (s : KbState) (h : 0 < s.interrupt_input_blocked) :
    recursive_edit rec1 s = (s, []) := by
  simp [recursive_edit, h]

theorem recursive_edit_blocked_input_noop_witness :
    (0 : Int) < kbS1.interrupt_input_blocked ∧
      recursive_edit id kbS1 = (kbS1, []) :=
  ⟨by decide, recursive_edit_blocked_input_noop id kbS1 (by decide)⟩

end Remacs
